import Mathlib

/-!
Shallow embedding of the per-chat conversation memory subsystem of the
repository (files `make_bot/chat_history.py` and `make_bot/context_manager.py`).

Conventions of the embedding:
* A message is opaque to this subsystem; the store only concatenates
  messages and renders them to text, so a message is modelled as a `String`.
* A turn is the pair `(messages, timestamp)` exactly as stored in
  `chat_map`; timestamps (Python floats of seconds) are modelled as `Int`
  since the code only compares and subtracts them.
* The global dictionaries `chat_map` / `chat_context` and the two on-disk
  files are modelled per chat: distinct chat ids never interact in the
  source, so a `ChatState` is the slice of global state belonging to one
  chat id.  `none` means "key absent" / "file does not exist".
* One on-disk record of the jsonl turn log is modelled by `RawRecord`:
  `good t` is a record that `json.loads` parses back to turn `t`,
  `malformed` is a record on which `json.loads` raises, `blank` is a line
  that `line.strip()` rejects.  `json.dumps` is deterministic, so two
  equal `good` records correspond to byte-identical lines.
-/

abbrev Msg := String

abbrev Turn := List Msg × Int

/-- One record (line) of the on-disk turn log `chat_<id>.jsonl`. -/
inductive RawRecord where
  | good : Turn → RawRecord
  | malformed : RawRecord
  | blank : RawRecord
deriving DecidableEq, Repr

/-- The slice of mutable state belonging to one chat id:
`chat_map` entry, `chat_context` entry, the turn-log file and the
context file. -/
structure ChatState where
  chat_map : Option (List Turn)
  chat_context : Option String
  chat_file : Option (List RawRecord)
  context_file : Option String
deriving DecidableEq, Repr

/-- `MAX_RECENT_MESSAGES = 15` from `chat_history.py`. -/
def MAX_RECENT_MESSAGES : Nat := 15

/-- `MAX_RECENT_AGE_MINUTES = 10` from `chat_history.py`. -/
def MAX_RECENT_AGE_MINUTES : Int := 10

/-- The loop body of `_load_from_file` for the chat file: build the
parsed list, skipping blank lines; a record on which `json.loads` raises
propagates the exception out of the loop, modelled by `none`. -/
def load_chat_lines : List RawRecord → List Turn → Option (List Turn)
  | [], acc => some acc
  | RawRecord.blank :: rest, acc => load_chat_lines rest acc
  | RawRecord.good t :: rest, acc => load_chat_lines rest (acc ++ [t])
  | RawRecord.malformed :: _, _ => none

/-- `_load_from_file(chat_id, "chat")` on an existing file: the
`except` clause turns any raised exception into the return value `[]`. -/
def load_chat_file (lines : List RawRecord) : List Turn :=
  (load_chat_lines lines []).getD []

/-- `_load_from_file(chat_id, "chat")`: a missing file yields `[]`. -/
def load_chat_from_disk : Option (List RawRecord) → List Turn
  | none => []
  | some lines => load_chat_file lines

/-- `json.dumps` of every in-memory turn, one line per turn, as written
by `_save_to_file(chat_id, "chat")`. -/
def serialize_turns (turns : List Turn) : List RawRecord :=
  turns.map RawRecord.good

/-- `_save_to_file(chat_id, "chat")`: no-op when the chat id is not in
`chat_map`; otherwise the file is opened with mode w and rewritten to
hold exactly the serialization of the in-memory turn list. -/
def save_chat_to_file (s : ChatState) : ChatState :=
  match s.chat_map with
  | none => s
  | some turns => { s with chat_file := some (serialize_turns turns) }

/-- `_save_to_file(chat_id, "context")`: no-op when the chat id is not in
`chat_context`; otherwise the context file is rewritten with the cached
string. -/
def save_context_to_file (s : ChatState) : ChatState :=
  match s.chat_context with
  | none => s
  | some c => { s with context_file := some c }

/-- `_ensure_chat_loaded`: load from disk only when the chat id is not in
`chat_map`.  (The extra source step `if not chat_map[chat_id]`
only replaces an empty list by an empty list.) -/
def ensure_chat_loaded (s : ChatState) : ChatState :=
  match s.chat_map with
  | some _ => s
  | none => { s with chat_map := some (load_chat_from_disk s.chat_file) }

/-- The time-filtered candidate window of `_get_recent_messages`:
turns strictly younger than `MAX_RECENT_AGE_MINUTES` minutes. -/
def recent_by_time (now : Int) (turns : List Turn) : List Turn :=
  turns.filter (fun t => decide (now - t.2 < MAX_RECENT_AGE_MINUTES * 60))

/-- The count-filtered candidate window of `_get_recent_messages`:
the Python slice `chat_map[chat_id][-MAX_RECENT_MESSAGES:]`. -/
def recent_by_count (turns : List Turn) : List Turn :=
  turns.drop (turns.length - MAX_RECENT_MESSAGES)

/-- `_get_recent_messages(chat_id)`; `now` stands for `time.time()`. -/
def get_recent_messages (now : Int) (s : ChatState) : List Turn :=
  match s.chat_map with
  | none => []
  | some turns =>
      if (recent_by_time now turns).length < (recent_by_count turns).length then
        recent_by_time now turns
      else
        recent_by_count turns

/-- The flattening loop shared by the retrieval functions:
`for message_list, timestamp in ...: messages.extend(message_list)`. -/
def flatten_turn_messages (turns : List Turn) : List Msg :=
  turns.foldl (fun acc t => acc ++ t.1) []

/-- `get_chat_history(chat_id, full_history)`; returns the state after
`_ensure_chat_loaded` together with the flattened selection. -/
def get_chat_history (now : Int) (s : ChatState) (full_history : Bool) :
    ChatState × List Msg :=
  let s₁ := ensure_chat_loaded s
  let selected :=
    if full_history then s₁.chat_map.getD [] else get_recent_messages now s₁
  (s₁, flatten_turn_messages selected)

/-- `clear_chat(chat_id)`: resets the `chat_map` entry to the empty list;
the persistent jsonl file is deliberately not touched. -/
def clear_chat (s : ChatState) : ChatState :=
  { s with chat_map := some [] }

/-- `add_messages_to_history(chat_id, messages, timestamp)`. -/
def add_messages_to_history (s : ChatState) (messages : List Msg)
    (timestamp : Int) : ChatState :=
  let s₁ := ensure_chat_loaded s
  let s₂ := { s₁ with chat_map := some (s₁.chat_map.getD [] ++ [(messages, timestamp)]) }
  save_chat_to_file s₂

/-- The Python test `not context.strip()`: true exactly when the string
is empty or consists of whitespace only. -/
def string_blank (s : String) : Bool :=
  s.toList.all (fun c => c.isWhitespace)

/-- `set_chat_context(chat_id, context)`: cache, persist, and clear the
chat history when the context is blank (`not context.strip()`). -/
def set_chat_context (s : ChatState) (context : String) : ChatState :=
  let s₁ := { s with chat_context := some context }
  let s₂ := save_context_to_file s₁
  if string_blank context then clear_chat s₂ else s₂

/-- `get_chat_history_range(chat_id, start_turn, end_turn)`: negative
indices count from the end, the end bound is inclusive, and both bounds
are clamped before the Python slice `[start_turn:end_turn]` is taken. -/
def get_chat_history_range (s : ChatState) (start_turn end_turn : Int) :
    ChatState × List Msg :=
  let s₁ := ensure_chat_loaded s
  let turns := s₁.chat_map.getD []
  if turns = [] then (s₁, [])
  else
    let total : Int := turns.length
    let start₁ := if start_turn < 0 then max 0 (total + start_turn) else start_turn
    let end₁ := if end_turn < 0 then total + end_turn + 1 else min (end_turn + 1) total
    let start₂ := max 0 (min start₁ total)
    let end₂ := max start₂ (min end₁ total)
    (s₁, flatten_turn_messages
      ((turns.drop start₂.toNat).take (end₂.toNat - start₂.toNat)))

/-- `get_chat_history_by_time(chat_id, minutes_ago_start, minutes_ago_end)`;
`now` stands for `time.time()`. -/
def get_chat_history_by_time (now : Int) (s : ChatState)
    (minutes_ago_start minutes_ago_end : Int) : ChatState × List Msg :=
  let s₁ := ensure_chat_loaded s
  let turns := s₁.chat_map.getD []
  if turns = [] then (s₁, [])
  else
    let start_time := now - minutes_ago_start * 60
    let end_time := now - minutes_ago_end * 60
    (s₁, flatten_turn_messages
      (turns.filter (fun t => decide (start_time ≤ t.2) && decide (t.2 ≤ end_time))))

/-!
Embedding of `make_bot/context_manager.py`.

`count_tokens` calls tiktoken, an external capability; it is modelled as
an explicit parameter `tc : String → Nat` of every function that uses it.
The model lookup `get_model_limit(model_identifier)` is kept as its own
definition, and the functions that in the source receive
`model_identifier` and call it receive the looked-up limit `model_limit`
directly (`available = model_limit - SAFETY_MARGIN` is computed inside,
as in the source).  History items are again opaque strings; Python
renders them with `str(msg)`, the identity on strings.
-/

/-- `MODEL_LIMITS` from `context_manager.py`. -/
def MODEL_LIMITS : List (String × Nat) :=
  [("groq:llama-3.1-8b-instant", 8192),
   ("anthropic:claude-sonnet-4-latest", 200000),
   ("openai:gpt-4o", 128000),
   ("openai:gpt-4o-mini", 128000)]

/-- `DEFAULT_CONTEXT_LIMIT = 8192`. -/
def DEFAULT_CONTEXT_LIMIT : Nat := 8192

/-- `SAFETY_MARGIN = 1000`. -/
def SAFETY_MARGIN : Nat := 1000

/-- `get_model_limit(model_identifier)`. -/
def get_model_limit (model_identifier : String) : Nat :=
  (MODEL_LIMITS.lookup model_identifier).getD DEFAULT_CONTEXT_LIMIT

/-- The stringification `"\n".join(str(msg) for msg in chat_history)`. -/
def join_history (chat_history : List String) : String :=
  String.intercalate "\n" chat_history

/-- The record returned by `analyze_context_usage`. -/
structure ContextInfo where
  total_tokens : Int
  limit : Int
  remaining : Int
  needs_compression : Bool
deriving DecidableEq, Repr

/-- `analyze_context_usage(system_prompt, context, chat_history,
user_input, model_identifier)`, with the model lookup factored out into
the `model_limit` argument.  An empty `context` string is falsy in
Python, so its tokens count as 0 without calling the tokenizer. -/
def analyze_context_usage (tc : String → Nat) (system_prompt context : String)
    (chat_history : List String) (user_input : String) (model_limit : Nat) :
    ContextInfo :=
  let system_tokens : Int := tc system_prompt
  let context_tokens : Int := if context = "" then 0 else tc context
  let user_tokens : Int := tc user_input
  let history_tokens : Int := tc (join_history chat_history)
  let total_tokens := system_tokens + context_tokens + history_tokens + user_tokens
  let available : Int := (model_limit : Int) - (SAFETY_MARGIN : Int)
  { total_tokens := total_tokens
    limit := available
    remaining := available - total_tokens
    needs_compression := decide (available - total_tokens < 0) }

/-- The `while` loop of `compress_chat_history`: exit on an empty list or
a non-positive `target_reduction` (both loop-invariant), stop once the
token count of the remaining list is at most `target_reduction`, pop the
oldest item while more than 2 remain, otherwise stop. -/
def compress_loop (tc : String → Nat) (target_reduction : Int) :
    List String → List String
  | [] => []
  | msg :: rest =>
      if target_reduction ≤ 0 then msg :: rest
      else if (tc (join_history (msg :: rest)) : Int) ≤ target_reduction then
        msg :: rest
      else if 2 < (msg :: rest).length then compress_loop tc target_reduction rest
      else msg :: rest

/-- `compress_chat_history(chat_history, target_reduction, context)`;
the `context` argument is accepted and unused, as in the source. -/
def compress_chat_history (tc : String → Nat) (chat_history : List String)
    (target_reduction : Int) (_context : String) : List String :=
  if chat_history = [] then chat_history
  else compress_loop tc target_reduction chat_history

/-- The sentence-rebuilding loop of `compress_context`: walk the
sentences from the most recent backwards, growing the kept text while it
still fits `max_tokens`, and stop at the first sentence that does not
fit. -/
def rebuild_sentences (tc : String → Nat) (max_tokens : Int) :
    List String → String → String
  | [], compressed => compressed
  | sentence :: rest, compressed =>
      let test_context := sentence ++ ". " ++ compressed
      if (tc test_context : Int) ≤ max_tokens then
        rebuild_sentences tc max_tokens rest test_context
      else compressed

/-- `compress_context(context, max_tokens)`.  The float expression
`int(len(context) * (max_tokens / current_tokens))` is modelled by the
exact integer quotient `len * max_tokens / current_tokens` (both reached
only with `0 < max_tokens < current_tokens`). -/
def compress_context (tc : String → Nat) (context : String)
    (max_tokens : Int) : String :=
  if context = "" then context
  else
    let current_tokens : Int := tc context
    if current_tokens ≤ max_tokens then context
    else
      let target_length : Nat := context.length * max_tokens.toNat / current_tokens.toNat
      let sentences := context.splitOn ". "
      if 1 < sentences.length then
        let compressed := rebuild_sentences tc max_tokens sentences.reverse ""
        if compressed ≠ "" then compressed.trim
        else (context.toList.take target_length).asString
      else (context.toList.take target_length).asString

/-- `ensure_context_fits(system_prompt, context, chat_history,
user_input, model_identifier)`, with the model lookup factored out into
`model_limit`.  Returns `(compressed_context, compressed_history)`.  The
final `analyze_context_usage` call of the source only feeds logging and
is omitted. -/
def ensure_context_fits (tc : String → Nat) (system_prompt context : String)
    (chat_history : List String) (user_input : String) (model_limit : Nat) :
    String × List String :=
  let info := analyze_context_usage tc system_prompt context chat_history
    user_input model_limit
  if info.needs_compression then
    let tokens_to_remove₀ := |info.remaining|
    let history_tokens : Int := tc (join_history chat_history)
    let compressed_history :=
      if 0 < history_tokens ∧ 0 < tokens_to_remove₀ then
        compress_chat_history tc chat_history
          (min tokens_to_remove₀ (history_tokens / 2)) context
      else chat_history
    let tokens_to_remove :=
      if 0 < history_tokens ∧ 0 < tokens_to_remove₀ then
        tokens_to_remove₀ -
          (history_tokens - (tc (join_history compressed_history) : Int))
      else tokens_to_remove₀
    let compressed_context :=
      if 0 < tokens_to_remove ∧ context ≠ "" then
        let context_tokens : Int := tc context
        if 0 < context_tokens then
          compress_context tc context
            (max (context_tokens - tokens_to_remove) (context_tokens / 4))
        else context
      else context
    (compressed_context, compressed_history)
  else (context, chat_history)

/-- `ensure_context_fits` with the model lookup inlined, matching the
source signature taking `model_identifier`. -/
def ensure_context_fits_for_model (tc : String → Nat)
    (system_prompt context : String) (chat_history : List String)
    (user_input : String) (model_identifier : String) : String × List String :=
  ensure_context_fits tc system_prompt context chat_history user_input
    (get_model_limit model_identifier)

/-!
Auxiliary definitions used by the verification: concrete tokenizers,
demo chat states, and views of the raw file used to state results.
-/

/-- The well-formed turns of a raw file, in file order. -/
def good_records (lines : List RawRecord) : List Turn :=
  lines.filterMap (fun r => match r with | RawRecord.good t => some t | _ => none)

/-- Whether some record of the file is malformed. -/
def has_malformed (lines : List RawRecord) : Bool :=
  lines.any (fun r => decide (r = RawRecord.malformed))

/-- Number of occurrences of a character in a string. -/
def count_char (c : Char) (s : String) : Nat :=
  (s.toList.filter (fun a => a = c)).length

/-- A concrete instantiation of the external tokenizer for the overflow
scenario of the specification: every x weighs 100 tokens and every y
weighs 10 tokens, so the newline separators of `join_history` weigh 0. -/
def tc_scenario (s : String) : Nat :=
  100 * count_char 'x' s + 10 * count_char 'y' s

/-- The scenario history: 50 items of 100 tokens each (5000 in total). -/
def scenario_history : List String := List.replicate 50 "x"

/-- The state of a chat that received one turn ["hello"] at time 100,
starting from a fresh process with no files on disk. -/
def chat_after_hello : ChatState :=
  add_messages_to_history ⟨none, none, none, none⟩ ["hello"] 100

/-- Turns at ages 20, 12, 9, 5 and 0 minutes (in chronological order)
when the clock reads 1200 seconds. -/
def recent_demo_turns : List Turn :=
  [(["a"], 0), (["b"], 480), (["c"], 660), (["d"], 900), (["e"], 1200)]

/-- 16 turns at clock 1000: the oldest is fresh, the second is stale and
the remaining 14 are fresh, so both candidate windows hold 15 turns but
differ as lists; the count window (with the stale turn, without the
oldest fresh one) is returned. -/
def tie_demo_turns : List Turn :=
  (["m0"], 1000) :: (["m1"], 0) ::
    (List.range 14).map (fun i => (["f" ++ toString i], 1000))

/-- A concrete 10-turn history. -/
def range_demo_turns : List Turn :=
  [(["0"], 0), (["1"], 1), (["2"], 2), (["3"], 3), (["4"], 4),
   (["5"], 5), (["6"], 6), (["7"], 7), (["8"], 8), (["9"], 9)]

/-! Helper lemmas, claim theorems, witnesses and counterexamples. -/

theorem load_chat_lines_eq (lines : List RawRecord) (acc : List Turn) :
    load_chat_lines lines acc =
      if has_malformed lines then none else some (acc ++ good_records lines) := by
  induction lines generalizing acc with
  | nil => simp [load_chat_lines, has_malformed, good_records]
  | cons r rest ih =>
      cases r with
      | good t =>
          simp [load_chat_lines, has_malformed, good_records, ih, List.append_assoc]
      | malformed => simp [load_chat_lines, has_malformed, List.any_cons]
      | blank =>
          simp [load_chat_lines, has_malformed, good_records, ih, List.any_cons]

theorem ensure_chat_loaded_of_some (s : ChatState) (m : List Turn)
    (hmem : s.chat_map = some m) : ensure_chat_loaded s = s := by
  unfold ensure_chat_loaded
  rw [hmem]

/-- C1 counterexample: a chat whose log holds one persisted turn; after a
blank-context reset (which clears memory but not the file), `addTurn`
rewrites the log wholesale from memory, producing a file with only the
new record - the previously written record is not preserved. -/
theorem addTurn_rewrites_log_cex :
    ((add_messages_to_history
        (set_chat_context ⟨none, none, some [RawRecord.good (["old"], 0)], none⟩ "")
        ["new"] 50).chat_file = some [RawRecord.good (["new"], 50)])
    ∧ ((add_messages_to_history
        (set_chat_context ⟨none, none, some [RawRecord.good (["old"], 0)], none⟩ "")
        ["new"] 50).chat_file
      ≠ some [RawRecord.good (["old"], 0), RawRecord.good (["new"], 50)]) := by
  decide

/-- C1 amended: `addTurn` appends the turn to memory and rewrites the log
wholesale as the serialization of the whole in-memory list; when the log
equals the serialization of memory (the normal case: memory was loaded
from this very file and only appended to), the rewritten file equals the
previous file plus exactly the one new record, prior records unchanged. -/
theorem addTurn_appends_one_record_when_synced (s : ChatState) (m : List Turn)
    (messages : List Msg) (timestamp : Int)
    (hmem : s.chat_map = some m) (_hfile : s.chat_file = some (serialize_turns m)) :
    (add_messages_to_history s messages timestamp).chat_map
        = some (m ++ [(messages, timestamp)])
    ∧ (add_messages_to_history s messages timestamp).chat_file
        = some (serialize_turns m ++ [RawRecord.good (messages, timestamp)]) := by
  unfold add_messages_to_history
  rw [ensure_chat_loaded_of_some s m hmem]
  unfold save_chat_to_file
  simp [hmem, serialize_turns]

theorem addTurn_appends_one_record_when_synced_witness :
    (add_messages_to_history ⟨some [(["old"], 0)], none,
        some [RawRecord.good (["old"], 0)], none⟩ ["new"] 50).chat_map
        = some [(["old"], 0), (["new"], 50)]
    ∧ (add_messages_to_history ⟨some [(["old"], 0)], none,
        some [RawRecord.good (["old"], 0)], none⟩ ["new"] 50).chat_file
        = some [RawRecord.good (["old"], 0), RawRecord.good (["new"], 50)] :=
  addTurn_appends_one_record_when_synced _ [(["old"], 0)] ["new"] 50 rfl rfl

/-- C2 counterexample: a file holding a well-formed record, a malformed
record, and another well-formed record; `ensureLoaded` populates the
in-memory list as empty instead of keeping the two well-formed records. -/
theorem load_malformed_record_cex :
    ((ensure_chat_loaded ⟨none, none,
        some [RawRecord.good (["a"], 1), RawRecord.malformed, RawRecord.good (["b"], 2)],
        none⟩).chat_map = some [])
    ∧ (some ([] : List Turn) ≠ some [((["a"], 1) : Turn), (["b"], 2)]) := by
  decide

/-- C2 amended: `ensureLoaded` never raises, but it does not skip a
malformed record individually: the exception raised by parsing it is
caught around the whole read loop, so any malformed record makes the
load yield an empty turn list, discarding every well-formed record; only
a file with no malformed record loads all its records in file order. -/
theorem ensure_loaded_malformed_aborts (s : ChatState) (lines : List RawRecord)
    (hmem : s.chat_map = none) (hfile : s.chat_file = some lines) :
    (has_malformed lines = true → (ensure_chat_loaded s).chat_map = some [])
    ∧ (has_malformed lines = false →
        (ensure_chat_loaded s).chat_map = some (good_records lines)) := by
  unfold ensure_chat_loaded
  rw [hmem, hfile]
  unfold load_chat_from_disk load_chat_file
  dsimp only
  rw [load_chat_lines_eq]
  constructor
  · intro h; simp [h]
  · intro h; simp [h]

theorem ensure_loaded_malformed_aborts_witness :
    ((ensure_chat_loaded ⟨none, none,
        some [RawRecord.good (["a"], 1), RawRecord.malformed], none⟩).chat_map = some [])
    ∧ ((ensure_chat_loaded ⟨none, none,
        some [RawRecord.good (["a"], 1), RawRecord.good (["b"], 2)], none⟩).chat_map
        = some [(["a"], 1), (["b"], 2)]) :=
  ⟨(ensure_loaded_malformed_aborts _
      [RawRecord.good (["a"], 1), RawRecord.malformed] rfl rfl).1 (by decide),
   (ensure_loaded_malformed_aborts _
      [RawRecord.good (["a"], 1), RawRecord.good (["b"], 2)] rfl rfl).2 (by decide)⟩

/-- C3 counterexample: after `setContext(id, "")`, `getHistory` with
`fullHistory=true` in the same process returns the empty sequence, not
the turns that existed before the reset. -/
theorem set_blank_context_cex :
    (get_chat_history 100 chat_after_hello true).2 = ["hello"]
    ∧ (get_chat_history 100 (set_chat_context chat_after_hello "") true).2 = []
    ∧ (get_chat_history 100 (set_chat_context chat_after_hello "") true).2 ≠ ["hello"] := by
  decide

/-- C3 amended: `setContext(id, "")` clears the in-memory turn list, so a
subsequent `getHistory` returns the empty sequence for both
`fullHistory=false` and `fullHistory=true` in the same process (the chat
stays marked loaded, so the disk is not re-read); the on-disk turn log
itself is not modified by the reset. -/
theorem set_blank_context_clears_both_views (s : ChatState) (now : Int) :
    (get_chat_history now (set_chat_context s "") false).2 = []
    ∧ (get_chat_history now (set_chat_context s "") true).2 = []
    ∧ (set_chat_context s "").chat_file = s.chat_file :=
  ⟨rfl, rfl, rfl⟩

set_option maxRecDepth 8000 in
/-- C4 counterexample: in the spec scenario (system prompt of 10 tokens,
50 history items of 100 tokens each, empty context, usable limit
2000 = 3000 - SAFETY_MARGIN), the bundle returned by `ensureFits` still
totals 2510 tokens, above the 2000-token limit: the history truncation
target is capped at half the history tokens (2500), the empty context
cannot absorb the remaining 510, and no further truncation happens. -/
theorem ensure_fits_overflow_scenario_cex :
    ((analyze_context_usage tc_scenario "y"
        (ensure_context_fits tc_scenario "y" "" scenario_history "" 3000).1
        (ensure_context_fits tc_scenario "y" "" scenario_history "" 3000).2
        "" 3000).total_tokens = 2510)
    ∧ ((analyze_context_usage tc_scenario "y"
        (ensure_context_fits tc_scenario "y" "" scenario_history "" 3000).1
        (ensure_context_fits tc_scenario "y" "" scenario_history "" 3000).2
        "" 3000).limit = 2000)
    ∧ ((analyze_context_usage tc_scenario "y"
        (ensure_context_fits tc_scenario "y" "" scenario_history "" 3000).1
        (ensure_context_fits tc_scenario "y" "" scenario_history "" 3000).2
        "" 3000).needs_compression = true) := by
  decide

set_option maxRecDepth 8000 in
/-- C4 amended: in the overflow scenario `ensureFits` truncates the
history to the most recent items with at least 2 retained - here the 25
most recent items, i.e. the suffix of the input history whose token
count (2500) first reaches the attempted reduction target
min(3010, 5000 / 2) = 2500 - and leaves the system prompt, user input
and (empty) context untouched; but the resulting bundle may still
exceed the limit: its total is 2510 > 2000, returned as best effort. -/
theorem ensure_fits_overflow_scenario_amended :
    (ensure_context_fits tc_scenario "y" "" scenario_history "" 3000
      = ("", List.replicate 25 "x"))
    ∧ (List.replicate 25 "x" = scenario_history.drop 25)
    ∧ (2 ≤ (List.replicate 25 "x").length)
    ∧ ((analyze_context_usage tc_scenario "y" "" (List.replicate 25 "x") ""
        3000).total_tokens = 2510) := by
  decide

/-- C5: with `fullHistory=false`, `getHistory` returns the flattened
messages of whichever candidate window is shorter - the turns younger
than `MAX_RECENT_AGE_MINUTES` or the last `MAX_RECENT_MESSAGES` turns -
and in particular, for turns at ages 0, 5, 9, 12 and 20 minutes the
3-turn age window wins over the 5-turn count window. -/
theorem recent_window_selection (now : Int) (s : ChatState) (turns : List Turn)
    (hmem : s.chat_map = some turns) :
    ((get_chat_history now s false).2 =
      flatten_turn_messages
        (if (recent_by_time now turns).length < (recent_by_count turns).length
         then recent_by_time now turns else recent_by_count turns))
    ∧ ((get_chat_history 1200 ⟨some recent_demo_turns, none, none, none⟩ false).2
        = ["c", "d", "e"]) := by
  constructor
  · simp [get_chat_history, ensure_chat_loaded_of_some s turns hmem,
      get_recent_messages, hmem]
  · decide

theorem recent_window_selection_witness :
    ((get_chat_history 1200 ⟨some recent_demo_turns, none, none, none⟩ false).2 =
      flatten_turn_messages
        (if (recent_by_time 1200 recent_demo_turns).length
            < (recent_by_count recent_demo_turns).length
         then recent_by_time 1200 recent_demo_turns
         else recent_by_count recent_demo_turns))
    ∧ ((get_chat_history 1200 ⟨some recent_demo_turns, none, none, none⟩ false).2
        = ["c", "d", "e"]) :=
  recent_window_selection 1200 _ recent_demo_turns rfl

/-- C10: when the two candidate windows have exactly the same number of
turns, the recent-window selection returns the count-based candidate
(the last `MAX_RECENT_MESSAGES` turns); the age-filtered candidate is
used only when strictly shorter. -/
theorem recent_window_tie_returns_count (now : Int) (s : ChatState)
    (turns : List Turn) (hmem : s.chat_map = some turns)
    (heq : (recent_by_time now turns).length = (recent_by_count turns).length) :
    get_recent_messages now s = recent_by_count turns := by
  unfold get_recent_messages
  rw [hmem]
  dsimp only
  rw [heq, if_neg (lt_irrefl _)]

theorem recent_window_tie_returns_count_witness :
    ((recent_by_time 1000 tie_demo_turns).length
        = (recent_by_count tie_demo_turns).length)
    ∧ (recent_by_time 1000 tie_demo_turns ≠ recent_by_count tie_demo_turns)
    ∧ (get_recent_messages 1000 ⟨some tie_demo_turns, none, none, none⟩
        = recent_by_count tie_demo_turns) :=
  ⟨by decide, by decide,
   recent_window_tie_returns_count 1000 _ tie_demo_turns rfl (by decide)⟩

/-- C6: on a 10-turn history, `getRange` interprets negative indices
from the end and treats the end bound as inclusive: `getRange(id,-3,-1)`
returns the flattened messages of turns 7, 8 and 9, and
`getRange(id,0,0)` returns the messages of turn 0 alone. -/
theorem get_range_negative_and_inclusive (s : ChatState) (turns : List Turn)
    (hmem : s.chat_map = some turns) (hlen : turns.length = 10) :
    ((get_chat_history_range s (-3) (-1)).2
      = flatten_turn_messages ((turns.drop 7).take 3))
    ∧ ((get_chat_history_range s 0 0).2
      = flatten_turn_messages (turns.take 1)) := by
  have hne : turns ≠ [] := by
    intro h; rw [h] at hlen; simp at hlen
  have hcast : (turns.length : Int) = 10 := by rw [hlen]; rfl
  constructor
  · unfold get_chat_history_range
    rw [ensure_chat_loaded_of_some s turns hmem]
    simp only [hmem, Option.getD_some, if_neg hne, hcast]
    norm_num
    rfl
  · unfold get_chat_history_range
    rw [ensure_chat_loaded_of_some s turns hmem]
    simp only [hmem, Option.getD_some, if_neg hne, hcast]
    norm_num

theorem get_range_negative_and_inclusive_witness :
    ((get_chat_history_range ⟨some range_demo_turns, none, none, none⟩ (-3) (-1)).2
      = flatten_turn_messages ((range_demo_turns.drop 7).take 3))
    ∧ ((get_chat_history_range ⟨some range_demo_turns, none, none, none⟩ 0 0).2
      = flatten_turn_messages (range_demo_turns.take 1)) :=
  get_range_negative_and_inclusive _ range_demo_turns rfl (by decide)

/-- C7: for all integer arguments, `getRange` returns the flattened
messages of a clamped valid slice `[a, b)` of the turn list (possibly
empty, never an error), and `getByTime` with an inverted time window -
in particular any negative `minutesAgoStart` with the default newer
bound 0 - returns the empty sequence rather than raising. -/
theorem range_and_time_args_clamped (s : ChatState) (turns : List Turn)
    (hmem : s.chat_map = some turns) :
    (∀ start_turn end_turn : Int, ∃ a b : Nat, a ≤ b ∧ b ≤ turns.length ∧
      (get_chat_history_range s start_turn end_turn).2
        = flatten_turn_messages ((turns.drop a).take (b - a)))
    ∧ (∀ now minutes_ago_start minutes_ago_end : Int,
        minutes_ago_start < minutes_ago_end →
        (get_chat_history_by_time now s minutes_ago_start minutes_ago_end).2 = []) := by
  constructor
  · intro start_turn end_turn
    unfold get_chat_history_range
    rw [ensure_chat_loaded_of_some s turns hmem]
    simp only [hmem, Option.getD_some]
    by_cases hne : turns = []
    · refine ⟨0, 0, le_refl 0, by simp, ?_⟩
      rw [if_pos hne, hne]
      rfl
    · rw [if_neg hne]
      dsimp only
      set T : Int := (turns.length : Int) with hT
      have hT0 : (0 : Int) ≤ T := by positivity
      set s₁ := if start_turn < 0 then max 0 (T + start_turn) else start_turn with hs₁
      set e₁ := if end_turn < 0 then T + end_turn + 1 else min (end_turn + 1) T with he₁
      have h1 : max 0 (min s₁ T) ≤ max (max 0 (min s₁ T)) (min e₁ T) := le_max_left _ _
      have h2 : max (max 0 (min s₁ T)) (min e₁ T) ≤ T :=
        max_le (max_le hT0 (min_le_right _ _)) (min_le_right _ _)
      refine ⟨(max 0 (min s₁ T)).toNat, (max (max 0 (min s₁ T)) (min e₁ T)).toNat,
        Int.toNat_le_toNat h1, ?_, rfl⟩
      exact Int.toNat_le.mpr h2
  · intro now minutes_ago_start minutes_ago_end hlt
    unfold get_chat_history_by_time
    rw [ensure_chat_loaded_of_some s turns hmem]
    simp only [hmem, Option.getD_some]
    by_cases hne : turns = []
    · rw [if_pos hne]
    · rw [if_neg hne]
      dsimp only
      have hfilter : turns.filter (fun t =>
          decide (now - minutes_ago_start * 60 ≤ t.2)
            && decide (t.2 ≤ now - minutes_ago_end * 60)) = [] := by
        rw [List.filter_eq_nil_iff]
        intro t _
        simp only [Bool.and_eq_true, decide_eq_true_eq, not_and]
        intro h1 h2
        omega
      rw [hfilter]
      rfl

theorem range_and_time_args_clamped_witness :
    ((get_chat_history_range ⟨some range_demo_turns, none, none, none⟩
        100 (-100)).2 = [])
    ∧ ((get_chat_history_by_time 0 ⟨some range_demo_turns, none, none, none⟩
        (-5) 0).2 = []) :=
  ⟨by decide,
   (range_and_time_args_clamped _ range_demo_turns rfl).2 0 (-5) 0 (by decide)⟩

theorem compress_loop_keeps_two (tc : String → Nat) (target_reduction : Int) :
    ∀ l : List String, 2 ≤ l.length →
      2 ≤ (compress_loop tc target_reduction l).length := by
  intro l
  induction l with
  | nil => intro h; simp at h
  | cons msg rest ih =>
      intro h
      unfold compress_loop
      split
      · exact h
      · split
        · exact h
        · split
          · rename_i hlen
            exact ih (by simp at hlen ⊢; omega)
          · exact h

/-- C8: when the input history holds at least 2 items, the history
returned by `ensureFits` holds at least 2 items (the truncation loop
never pops below the 2-item floor), and the system prompt and user
input are passed through unchanged: the function reads them only to
count tokens and returns only the pair (context, history). -/
theorem ensure_fits_keeps_two_items (tc : String → Nat)
    (system_prompt context : String) (chat_history : List String)
    (user_input : String) (model_limit : Nat)
    (h2 : 2 ≤ chat_history.length) :
    2 ≤ (ensure_context_fits tc system_prompt context chat_history user_input
          model_limit).2.length := by
  unfold ensure_context_fits
  dsimp only
  split
  · split
    · unfold compress_chat_history
      split
      · exact h2
      · exact compress_loop_keeps_two tc _ chat_history h2
    · exact h2
  · exact h2

theorem ensure_fits_keeps_two_items_witness :
    2 ≤ scenario_history.length
    ∧ 2 ≤ (ensure_context_fits tc_scenario "y" "" scenario_history "" 3000).2.length :=
  ⟨by decide,
   ensure_fits_keeps_two_items tc_scenario "y" "" scenario_history "" 3000 (by decide)⟩

theorem ensure_fits_of_no_compression (tc : String → Nat)
    (system_prompt context : String) (chat_history : List String)
    (user_input : String) (model_limit : Nat)
    (h : (analyze_context_usage tc system_prompt context chat_history user_input
        model_limit).needs_compression = false) :
    ensure_context_fits tc system_prompt context chat_history user_input
      model_limit = (context, chat_history) := by
  unfold ensure_context_fits
  dsimp only
  rw [h]
  simp

/-- C9: `ensureFits` is idempotent once the budget is satisfied - if the
(context, history) pair it returns fits the token budget together with
the unchanged system prompt and user input, then calling it again on
its own output returns that output unchanged. -/
theorem ensure_fits_idempotent_once_fitting (tc : String → Nat)
    (system_prompt context : String) (chat_history : List String)
    (user_input : String) (model_limit : Nat)
    (hfit : (analyze_context_usage tc system_prompt
        (ensure_context_fits tc system_prompt context chat_history user_input
          model_limit).1
        (ensure_context_fits tc system_prompt context chat_history user_input
          model_limit).2
        user_input model_limit).needs_compression = false) :
    ensure_context_fits tc system_prompt
        (ensure_context_fits tc system_prompt context chat_history user_input
          model_limit).1
        (ensure_context_fits tc system_prompt context chat_history user_input
          model_limit).2
        user_input model_limit
      = ensure_context_fits tc system_prompt context chat_history user_input
          model_limit :=
  (ensure_fits_of_no_compression tc system_prompt _ _ user_input model_limit
    hfit).trans (Prod.mk.eta)

theorem ensure_fits_idempotent_once_fitting_witness :
    ((analyze_context_usage tc_scenario "y"
        (ensure_context_fits tc_scenario "y" "x" ["x", "x"] "" 8192).1
        (ensure_context_fits tc_scenario "y" "x" ["x", "x"] "" 8192).2
        "" 8192).needs_compression = false)
    ∧ (ensure_context_fits tc_scenario "y"
        (ensure_context_fits tc_scenario "y" "x" ["x", "x"] "" 8192).1
        (ensure_context_fits tc_scenario "y" "x" ["x", "x"] "" 8192).2
        "" 8192
      = ensure_context_fits tc_scenario "y" "x" ["x", "x"] "" 8192) :=
  ⟨by decide,
   ensure_fits_idempotent_once_fitting tc_scenario "y" "x" ["x", "x"] "" 8192
    (by decide)⟩
